import Mathlib

/-!
# pbs-proxy: bid arbitration and request transformation

A shallow embedding of `proxy.go`.

* A decoded JSON document (`interface{}` as produced by `encoding/json`) is a
  `Value`. A Go `map[string]T` is an association list `GoMap T`: reading takes
  the first entry with the key, writing replaces that entry in place or appends
  a new one. A `float64` that comes out of a JSON document is finite, so it is
  a rational number and Go's `>` on it is the order of `ℚ`.
* Go maps and slices are references. The documents handled here are trees
  (they come from `json.Unmarshal`), so a write through a reference is
  modelled by returning the updated parent next to the result.
* A failed single-value type assertion panics. Functions that can panic return
  `Except String _`, the error being the panic.
* `json.Unmarshal` is library code: it is a parameter `dec` of the functions
  that call it. The handler takes it, with `json.Marshal` and the answers of
  the network to `http.Post`, from an `Env`.
* A map variable can be nil: `json.Unmarshal` of the text `null` leaves it so.
  Reads of a nil map miss, as reads of the empty map do; a write to it
  panics. The handler and `sendToJio` write to the map they decode, so their
  decoder tells the nil map from a map (`Decoded`).
* The two goroutines of the handler share no state: each is the function that
  gives the value it sends on its channel, or the panic that ends it before
  the send.
-/

namespace PbsProxy

/-! ## Data model -/

/-- A `[]byte`. -/
abbrev Bytes := List UInt8

/-- The bytes of an ASCII text. -/
def ascii (s : String) : Bytes := s.toList.map (fun c => c.toNat.toUInt8)

/-- A Go `map[string]T`. -/
abbrev GoMap (α : Type) := List (String × α)

/-- A decoded JSON value: what `encoding/json` stores in an `interface{}`. -/
inductive Value where
  | null : Value
  | bool (b : Bool) : Value
  | number (x : ℚ) : Value
  | string (s : String) : Value
  | array (xs : List Value) : Value
  | object (m : List (String × Value)) : Value

/-- The read `v, ok := m[key]`: `none` when `ok` is false. -/
def mapGet {α : Type} : GoMap α → String → Option α
  | [], _ => none
  | (k, v) :: rest, key => if k = key then some v else mapGet rest key

/-- The write `m[key] = v`. -/
def mapSet {α : Type} : GoMap α → String → α → GoMap α
  | [], key, v => [(key, v)]
  | (k, w) :: rest, key, v =>
    if k = key then (k, v) :: rest else (k, w) :: mapSet rest key v

/-- The read `m[key]` of a `map[string]string`: the zero value `""` for a
missing key. -/
def mapGetString (m : GoMap String) (key : String) : String :=
  match mapGet m key with
  | some s => s
  | none => ""

/-! ## Configuration -/

def publisherID : String := ""

def adSlotMappings : GoMap (GoMap String) :=
  [ ("com.truecaller",
      [ ("banner", "6931445"),
        ("video", "6931468"),
        ("native", "6931469") ]),
    ("com.snapchat.android",
      [ ("banner", "snap_banner_slot_01"),
        ("video", "snap_video_slot_02"),
        ("native", "snap_native_slot_03") ]) ]

def fallbackAdSlots : GoMap String :=
  [ ("banner", "default_banner_slot"),
    ("video", "default_video_slot"),
    ("native", "default_native_slot") ]

/-! ## Ad-type classifier and slot resolver -/

def getAdSlot (bundle adType : String) : String :=
  match mapGet adSlotMappings bundle with
  | some bundleMap =>
    match mapGet bundleMap adType with
    | some slot => slot
    | none => mapGetString fallbackAdSlots adType
  | none => mapGetString fallbackAdSlots adType

def getAdType (imp : GoMap Value) : String :=
  if (mapGet imp "video").isSome then "video"
  else if (mapGet imp "banner").isSome then "banner"
  else if (mapGet imp "native").isSome then "native"
  else "unknown"

/-! ## Request transformer -/

/-- The map `getOrCreateMap` returns, paired with `parent` as the call leaves
it: unchanged when `parent[key]` is already a map, else with
`parent[key] = newMap`. -/
def getOrCreateMap (parent : GoMap Value) (key : String) : GoMap Value × GoMap Value :=
  match mapGet parent key with
  | some (Value.object m) => (m, parent)
  | _ => ([], mapSet parent key (Value.object []))

/-- The literal `map[string]interface{}{"publisherId": publisherID, "adSlot": slot}`. -/
def pubmaticConfig (slot : String) : Value :=
  Value.object [("publisherId", Value.string publisherID), ("adSlot", Value.string slot)]

/-- One iteration of the loop of `injectPubmaticConfig`: the value left at
`impList[i]` for the element `item`. -/
def injectImp (bundle : String) (item : Value) : Value :=
  match item with
  | Value.object imp =>
    let adType := getAdType imp
    let slot := getAdSlot bundle adType
    let (ext, imp) := getOrCreateMap imp "ext"
    let (prebid, ext) := getOrCreateMap ext "prebid"
    let (bidder, prebid) := getOrCreateMap prebid "bidder"
    let bidder := mapSet bidder "pubmatic" (pubmaticConfig slot)
    let prebid := mapSet prebid "bidder" (Value.object bidder)
    let ext := mapSet ext "prebid" (Value.object prebid)
    let imp := mapSet imp "ext" (Value.object ext)
    Value.object imp
  | other => other

/-- The request as `injectPubmaticConfig(req, bundle)` leaves it. The loop
visits every index once and writes only the index it visits, so it is a map
over `impList`. -/
def injectPubmaticConfig (req : GoMap Value) (bundle : String) : GoMap Value :=
  match mapGet req "imp" with
  | some (Value.array impList) =>
    mapSet req "imp" (Value.array (impList.map (injectImp bundle)))
  | _ => req

/-! ## Bid arbiter -/

/-- The panic of a failed single-value type assertion. -/
def conversionPanic (want : String) : String :=
  "interface conversion: interface \x7b\x7d is not " ++ want

def extractFirstBid (resp : GoMap Value) : Except String (Option (GoMap Value)) :=
  match mapGet resp "seatbid" with
  | some (Value.array (seat :: _)) =>
    match seat with
    | Value.object seatMap =>
      match mapGet seatMap "bid" with
      | some (Value.array (first :: _)) =>
        match first with
        | Value.object bid => Except.ok (some bid)
        | _ => Except.ok none
      | _ => Except.ok none
    | _ => Except.error (conversionPanic "map[string]interface \x7b\x7d")
  | _ => Except.ok none

/-- The assertion `v.(float64)` on the result of a map read. -/
def assertFloat64 : Option Value → Except String ℚ
  | some (Value.number x) => Except.ok x
  | _ => Except.error (conversionPanic "float64")

/-- The call `json.Unmarshal(resp, &m)` with `m` a `map[string]interface{}`:
`none` is an error. The decoder of the library is `dec`; a nil slice is never
valid JSON. -/
def jsonUnmarshal (dec : Bytes → Option (GoMap Value)) : Option Bytes → Option (GoMap Value)
  | none => none
  | some b => dec b

/-- The block `if json.Unmarshal(resp, &m) == nil { if bid := extractFirstBid(m);
bid != nil { price = bid["price"].(float64) ... } }` that `extractHighestBid`
runs on each response: the price it reads, `none` when the block assigns
nothing. -/
def firstBidPrice (dec : Bytes → Option (GoMap Value)) (resp : Option Bytes) :
    Except String (Option ℚ) :=
  match jsonUnmarshal dec resp with
  | none => Except.ok none
  | some m =>
    match extractFirstBid m with
    | Except.error e => Except.error e
    | Except.ok none => Except.ok none
    | Except.ok (some bid) =>
      match assertFloat64 (mapGet bid "price") with
      | Except.error e => Except.error e
      | Except.ok p => Except.ok (some p)

/-- What the log line "Final Bids" of `extractHighestBid` records. -/
structure FinalBids where
  pubmatic : ℚ
  jio : ℚ
  winner : String

/-- The result of `extractHighestBid` (`none` is a nil slice) and the log line
it writes. -/
def extractHighestBid (dec : Bytes → Option (GoMap Value)) (pbsResp jioResp : Option Bytes) :
    Except String (Option Bytes × FinalBids) :=
  match firstBidPrice dec pbsResp with
  | Except.error e => Except.error e
  | Except.ok pbsPrice =>
    let pbsBid : ℚ := pbsPrice.getD 0
    let winnerResp : Option Bytes := if pbsPrice.isSome then pbsResp else none
    match firstBidPrice dec jioResp with
    | Except.error e => Except.error e
    | Except.ok jioPrice =>
      let jioBid : ℚ := jioPrice.getD 0
      let winnerResp : Option Bytes :=
        if jioPrice.isSome ∧ jioBid > pbsBid then jioResp else winnerResp
      let winner : String :=
        if jioBid > pbsBid then "Jio" else if pbsBid > 0 then "PubMatic" else "None"
      Except.ok (winnerResp, ⟨pbsBid, jioBid, winner⟩)

/-! ## Dispatcher and handler -/

def prebidURL : String := "http://localhost:8000/openrtb2/auction"

def jioURL : String := "https://mercury-dsp.jio.com/jiodsp/?spid=51"

/-- What `http.Post` followed by `io.ReadAll(resp.Body)` gives: `failed` when
`http.Post` returns an error, else the status code of the response, the bytes
read from its body and whether the read ended in an error. -/
inductive PostResult where
  | failed : PostResult
  | response (statusCode : Nat) (body : Bytes) (readFailed : Bool) : PostResult

/-- What `json.Unmarshal(data, &m)` does to a `map[string]interface{}` variable
`m`: it returns an error, or it sets `m` to the nil map (the JSON text `null`),
or it sets `m` to a map. -/
inductive Decoded where
  | failed : Decoded
  | nilMap : Decoded
  | map (m : GoMap Value) : Decoded

/-- The library and the network: `json.Unmarshal` into a
`map[string]interface{}`, `json.Marshal` of such a variable (the argument
`none` is the nil map, the result `none` an error), and the answer to a POST of
a body to a URL. -/
structure Env where
  unmarshal : Bytes → Decoded
  marshal : Option (GoMap Value) → Option Bytes
  post : String → Bytes → PostResult

/-- What the reads of a decoded map see: a read of the nil map misses, as a
read of the empty map does. -/
def readsOf : Decoded → Option (GoMap Value)
  | Decoded.failed => none
  | Decoded.nilMap => some []
  | Decoded.map m => some m

/-- The decoder `extractHighestBid` runs on the responses, which it only
reads. -/
def Env.decoder (env : Env) (b : Bytes) : Option (GoMap Value) :=
  readsOf (env.unmarshal b)

/-- The panic of a write `m[key] = v` to a nil map. -/
def nilMapPanic : String := "assignment to entry in nil map"

/-- The document `sendToJio` marshals: the decoded body after
`ext := getOrCreateMap(jioReq, "ext")`, the two writes to `ext` and
`jioReq["ext"] = ext`. -/
def jioRequest (jioReq : GoMap Value) : GoMap Value :=
  let (ext, jioReq) := getOrCreateMap jioReq "ext"
  let ext := mapSet ext "ssp" (Value.string "abc")
  let ext := mapSet ext "spid" (Value.string "51")
  mapSet jioReq "ext" (Value.object ext)

/-- The POSTs `sendToJio` makes, as (URL, body), and its result: `none`
when the returned error is not nil. When `json.Unmarshal` leaves `jioReq` nil,
the read in `getOrCreateMap(jioReq, "ext")` misses and its write
`parent[key] = newMap` panics, before any POST. -/
def sendToJio (env : Env) (originalBody : Bytes) :
    List (String × Bytes) × Except String (Option Bytes) :=
  match env.unmarshal originalBody with
  | Decoded.failed => ([], Except.ok none)
  | Decoded.nilMap => ([], Except.error nilMapPanic)
  | Decoded.map jioReq =>
    match env.marshal (some (jioRequest jioReq)) with
    | none => ([], Except.ok none)
    | some jioBody =>
      match env.post jioURL jioBody with
      | PostResult.failed => ([(jioURL, jioBody)], Except.ok none)
      | PostResult.response _ body readFailed =>
        ([(jioURL, jioBody)], Except.ok (if readFailed then none else some body))

/-- The value the first goroutine of `proxyHandler` sends on `pbsRespCh`:
nil when `http.Post` fails, else the bytes read from the body, the read error
being dropped. -/
def pbsTask (env : Env) (modifiedBody : Bytes) : Option Bytes :=
  match env.post prebidURL modifiedBody with
  | PostResult.failed => none
  | PostResult.response _ body _ => some body

/-- The value the second goroutine of `proxyHandler` sends on `jioRespCh`, or
the panic that ends the goroutine before it sends anything. -/
def jioTask (env : Env) (body : Bytes) : Except String (Option Bytes) :=
  (sendToJio env body).2

/-- The bundle `proxyHandler` reads from the request: `app.bundle` when `app`
is an object and `bundle` a string. -/
def requestBundle (req : GoMap Value) : String :=
  match mapGet req "app" with
  | some (Value.object app) =>
    match mapGet app "bundle" with
    | some (Value.string b) => b
    | _ => "UNKNOWN_BUNDLE"
  | _ => "UNKNOWN_BUNDLE"

/-- What the handler writes to the caller. -/
structure Reply where
  status : Nat
  contentType : String
  body : Bytes

/-- The reply `http.Error(w, msg, code)` writes. -/
def httpError (msg : String) (code : Nat) : Reply :=
  ⟨code, "text/plain; charset=utf-8", ascii (msg ++ "\n")⟩

/-- One run of the handler: the downstream POSTs of the goroutines it
started, as (URL, body), and its reply, or the panic that ended it before a
reply. A panic in a goroutine ends the process. -/
structure Handled where
  calls : List (String × Bytes)
  reply : Except String Reply

/-- Lines 83 to 129 of `proxyHandler`, on the inbound body and the request
variable `req` as `injectPubmaticConfig` left it (`none` is the nil map). The
two goroutines share no state; their POSTs are listed destination 1 first. The
handler receives from `jioRespCh` before it calls `extractHighestBid`, so a
panic of the second goroutine ends the run before arbitration. -/
def dispatch (env : Env) (body : Bytes) (req : Option (GoMap Value)) : Handled :=
  match env.marshal req with
  | none => ⟨[], Except.ok (httpError "Failed to marshal modified request" 500)⟩
  | some modifiedBody =>
    let pbsResp := pbsTask env modifiedBody
    let calls := (prebidURL, modifiedBody) :: (sendToJio env body).1
    match jioTask env body with
    | Except.error e => ⟨calls, Except.error e⟩
    | Except.ok jioResp =>
      match extractHighestBid env.decoder pbsResp jioResp with
      | Except.error e => ⟨calls, Except.error e⟩
      | Except.ok (none, _) => ⟨calls, Except.ok (httpError "No valid bids received" 204)⟩
      | Except.ok (some finalResp, _) =>
        ⟨calls, Except.ok ⟨200, "application/json", finalResp⟩⟩

/-- The handler on a request with method `method` whose body reads as
`bodyRead` (`none` when `io.ReadAll` fails). When `json.Unmarshal` leaves `req`
nil, every read of `req` misses: the bundle stays `UNKNOWN_BUNDLE` and
`injectPubmaticConfig` returns at its first test without a write, so `req` is
still nil when it is marshalled. -/
def proxyHandler (env : Env) (method : String) (bodyRead : Option Bytes) : Handled :=
  if method ≠ "POST" then ⟨[], Except.ok (httpError "Only POST requests are allowed" 405)⟩
  else
    match bodyRead with
    | none => ⟨[], Except.ok (httpError "Failed to read request" 500)⟩
    | some body =>
      match env.unmarshal body with
      | Decoded.failed => ⟨[], Except.ok (httpError "Invalid JSON in request" 400)⟩
      | Decoded.nilMap => dispatch env body none
      | Decoded.map req =>
        dispatch env body (some (injectPubmaticConfig req (requestBundle req)))

/-! ## Sample documents -/

/-- A bid response with one seat holding one bid `bid`. -/
def bidResponse (bid : GoMap Value) : GoMap Value :=
  [("seatbid", Value.array [Value.object [("bid", Value.array [Value.object bid])]])]

/-- A stand-in for the decoder on finitely many inputs: the document listed
for the bytes, an error for bytes not listed. -/
def tableDecoder (table : List (Bytes × GoMap Value)) (b : Bytes) : Option (GoMap Value) :=
  match table with
  | [] => none
  | (k, doc) :: rest => if k = b then some doc else tableDecoder rest b

/-- The key `key` is present in `m`: the `ok` of `_, ok := m[key]`. -/
def hasKey {α : Type} (m : GoMap α) (key : String) : Prop := ∃ v, mapGet m key = some v

/-- The value is an object, that is, the assertion `.(map[string]interface{})`
on the result of a map read succeeds. -/
def IsObject : Option Value → Prop
  | some (Value.object _) => True
  | _ => False

/-- The map `getOrCreateMap(parent, key)` returns: `parent[key]` when that is an
object, a new empty map otherwise. -/
def existingOrNew (parent : GoMap Value) (key : String) : GoMap Value :=
  (getOrCreateMap parent key).1

/-- The first bid of a decoded response is `bid`: `seatbid` and
`seatbid[0].bid` are non-empty arrays whose first elements are objects. -/
def FirstBidAt (m bid : GoMap Value) : Prop :=
  ∃ seat seats bids,
    mapGet m "seatbid" = some (Value.array (Value.object seat :: seats)) ∧
    mapGet seat "bid" = some (Value.array (Value.object bid :: bids))

/-- The response decodes and its first bid carries the number `p` under
`price`. -/
def PricedAt (dec : Bytes → Option (GoMap Value)) (resp : Option Bytes) (p : ℚ) : Prop :=
  ∃ b m bid, resp = some b ∧ dec b = some m ∧ FirstBidAt m bid ∧
    mapGet bid "price" = some (Value.number p)

/-- The response is nil, or is not decodable as a JSON object, or decodes to
an object without a non-empty `seatbid` array. -/
def NoSeatBid (dec : Bytes → Option (GoMap Value)) (resp : Option Bytes) : Prop :=
  resp = none ∨ (∃ b, resp = some b ∧ dec b = none) ∨
    (∃ b m, resp = some b ∧ dec b = some m ∧
      ∀ seat seats, mapGet m "seatbid" ≠ some (Value.array (seat :: seats)))

/-- A response body whose only bid has price 0. -/
def zeroPriceBody : Bytes :=
  ascii "\x7b\"seatbid\":[\x7b\"bid\":[\x7b\"price\":0\x7d]\x7d]\x7d"

/-- A response body whose only bid has no price. -/
def noPriceBody : Bytes :=
  ascii "\x7b\"seatbid\":[\x7b\"bid\":[\x7b\x7d]\x7d]\x7d"

/-- A response body whose only bid has a string under `price`. -/
def stringPriceBody : Bytes :=
  ascii "\x7b\"seatbid\":[\x7b\"bid\":[\x7b\"price\":\"1.5\"\x7d]\x7d]\x7d"

/-- A response body whose first seat is a string. -/
def flatSeatBody : Bytes := ascii "\x7b\"seatbid\":[\"none\"]\x7d"

/-- A response body whose only bid has price 0.75. -/
def jioBody : Bytes :=
  ascii "\x7b\"seatbid\":[\x7b\"bid\":[\x7b\"price\":0.75\x7d]\x7d]\x7d"

/-- A response body whose only bid has price 2.50. -/
def pbsBody : Bytes :=
  ascii "\x7b\"seatbid\":[\x7b\"bid\":[\x7b\"price\":2.50\x7d]\x7d]\x7d"

/-- A response body whose only bid has price 1.00. -/
def lowBody : Bytes :=
  ascii "\x7b\"seatbid\":[\x7b\"bid\":[\x7b\"price\":1.00\x7d]\x7d]\x7d"

/-- A response body whose only bid has price -1. -/
def negativePriceBody : Bytes :=
  ascii "\x7b\"seatbid\":[\x7b\"bid\":[\x7b\"price\":-1\x7d]\x7d]\x7d"

/-- The response decodes and has a first bid. -/
def HasFirstBid (dec : Bytes → Option (GoMap Value)) (resp : Option Bytes) : Prop :=
  ∃ b m bid, resp = some b ∧ dec b = some m ∧ FirstBidAt m bid

/-- The decoder on the sample bodies. -/
def sampleDecoder : Bytes → Option (GoMap Value) :=
  tableDecoder
    [ (zeroPriceBody, bidResponse [("price", Value.number 0)]),
      (noPriceBody, bidResponse []),
      (stringPriceBody, bidResponse [("price", Value.string "1.5")]),
      (flatSeatBody, [("seatbid", Value.array [Value.string "none"])]),
      (jioBody, bidResponse [("price", Value.number (3 / 4))]),
      (pbsBody, bidResponse [("price", Value.number (5 / 2))]),
      (lowBody, bidResponse [("price", Value.number 1)]),
      (negativePriceBody, bidResponse [("price", Value.number (-1))]) ]

/-- A request from bundle `com.truecaller` with one banner impression. -/
def bannerRequest : GoMap Value :=
  [ ("id", Value.string "req-1"),
    ("imp", Value.array
      [Value.object [("id", Value.string "1"), ("banner", Value.object [])]]),
    ("app", Value.object [("bundle", Value.string "com.truecaller")]) ]

/-- A video impression that already names another bidder and carries other
keys next to `prebid` and `bidder`. -/
def configuredImp : GoMap Value :=
  [ ("id", Value.string "1"),
    ("video", Value.object []),
    ("ext", Value.object
      [ ("skadn", Value.bool true),
        ("prebid", Value.object
          [ ("storedrequest", Value.string "s1"),
            ("bidder", Value.object [("appnexus", Value.number 7)]) ]) ]) ]

/-- A request whose only impression is `configuredImp`. -/
def configuredRequest : GoMap Value :=
  [("imp", Value.array [Value.object configuredImp])]

/-- An inbound body: the banner request with a top-level `ext`. -/
def inboundBody : Bytes :=
  ascii ("\x7b\"id\":\"req-1\",\"imp\":[\x7b\"id\":\"1\",\"banner\":\x7b\x7d\x7d]," ++
    "\"app\":\x7b\"bundle\":\"com.truecaller\"\x7d,\"ext\":\x7b\"trace\":true\x7d\x7d")

/-- The document `inboundBody` decodes to. -/
def inboundDoc : GoMap Value :=
  [ ("id", Value.string "req-1"),
    ("imp", Value.array
      [Value.object [("id", Value.string "1"), ("banner", Value.object [])]]),
    ("app", Value.object [("bundle", Value.string "com.truecaller")]),
    ("ext", Value.object [("trace", Value.bool true)]) ]

/-- An inbound body that is not JSON. -/
def invalidBody : Bytes := ascii "\x7bnot valid json"

/-- The body of an error page. -/
def errorBody : Bytes := ascii "Internal Server Error"

/-- The inbound body `null`. -/
def nullBody : Bytes := ascii "null"

/-- The decoder on `inboundBody`, on `null` and on the sample response
bodies. -/
def handlerDecoder (b : Bytes) : Decoded :=
  if b = inboundBody then Decoded.map inboundDoc
  else if b = nullBody then Decoded.nilMap
  else
    match sampleDecoder b with
    | some m => Decoded.map m
    | none => Decoded.failed

/-- A stand-in for the encoder: the nil map is encoded as `null`, every map
as the same bytes. -/
def sampleMarshal : Option (GoMap Value) → Option Bytes
  | none => some nullBody
  | some _ => some (ascii "request")

/-- Both destinations answer 200: destination 1 bids 2.50, destination 2 bids
1.00. -/
def sampleEnv : Env :=
  ⟨handlerDecoder, sampleMarshal,
    fun url _ => if url = prebidURL then PostResult.response 200 pbsBody false
      else PostResult.response 200 lowBody false⟩

/-- Both destinations answer 500 with an error page. -/
def errorEnv : Env :=
  ⟨handlerDecoder, sampleMarshal, fun _ _ => PostResult.response 500 errorBody false⟩

/-- The element carries the block: it is an object whose `ext`,
`ext.prebid` and `ext.prebid.bidder` are objects, with the injected
configuration under `ext.prebid.bidder.pubmatic`. -/
def CarriesPubmatic (item : Value) : Prop :=
  ∃ imp ext prebid bidder slot,
    item = Value.object imp ∧
    mapGet imp "ext" = some (Value.object ext) ∧
    mapGet ext "prebid" = some (Value.object prebid) ∧
    mapGet prebid "bidder" = some (Value.object bidder) ∧
    mapGet bidder "pubmatic" = some (pubmaticConfig slot)

/-- A request whose `imp` holds a banner impression and a string. -/
def mixedRequest : GoMap Value :=
  [ ("id", Value.string "req-2"),
    ("imp", Value.array
      [ Value.object [("id", Value.string "1"), ("banner", Value.object [])],
        Value.string "x" ]) ]

/-- A request without `imp`. -/
def noImpRequest : GoMap Value :=
  [("id", Value.string "req-3"), ("app", Value.object [("bundle", Value.string "com.truecaller")])]

/-- A request whose `imp` is an object, not a sequence. -/
def objectImpRequest : GoMap Value :=
  [("id", Value.string "req-4"), ("imp", Value.object [("banner", Value.object [])])]

/-- Whether the first element of `imp` is an object with an `ext`. -/
def firstImpHasExt (req : GoMap Value) : Bool :=
  match mapGet req "imp" with
  | some (Value.array (Value.object imp :: _)) => (mapGet imp "ext").isSome
  | _ => false

/-- A request from bundle `com.truecaller` whose only impression has none of
the keys `video`, `banner` and `native`. -/
def audioRequest : GoMap Value :=
  [ ("imp", Value.array
      [Value.object [("id", Value.string "1"), ("audio", Value.object [])]]),
    ("app", Value.object [("bundle", Value.string "com.truecaller")]) ]

/-! ## Reads and writes of a map -/

theorem mapGet_mapSet_self {α : Type} (m : GoMap α) (k : String) (v : α) :
    mapGet (mapSet m k v) k = some v := by
  induction m with
  | nil => simp [mapSet, mapGet]
  | cons e rest ih =>
    obtain ⟨k0, w⟩ := e
    by_cases h : k0 = k
    · simp [mapSet, mapGet, h]
    · simp [mapSet, mapGet, h, ih]

theorem mapGet_mapSet_ne {α : Type} (m : GoMap α) (k key : String) (v : α) (hne : key ≠ k) :
    mapGet (mapSet m k v) key = mapGet m key := by
  induction m with
  | nil => simp [mapSet, mapGet, Ne.symm hne]
  | cons e rest ih =>
    obtain ⟨k0, w⟩ := e
    by_cases h : k0 = k
    · subst h
      simp [mapSet, mapGet, Ne.symm hne]
    · by_cases h2 : k0 = key
      · subst h2
        simp [mapSet, mapGet, h]
      · simp [mapSet, mapGet, h, h2, ih]

theorem mapSet_mapSet_self {α : Type} (m : GoMap α) (k : String) (v w : α) :
    mapSet (mapSet m k v) k w = mapSet m k w := by
  induction m with
  | nil => simp [mapSet]
  | cons e rest ih =>
    obtain ⟨k0, u⟩ := e
    by_cases h : k0 = k
    · simp [mapSet, h]
    · simp [mapSet, h, ih]

theorem mapSet_eq_self {α : Type} (m : GoMap α) (k : String) (v : α)
    (h : mapGet m k = some v) : mapSet m k v = m := by
  induction m with
  | nil => simp [mapGet] at h
  | cons e rest ih =>
    obtain ⟨k0, u⟩ := e
    by_cases hk : k0 = k
    · simp [mapGet, hk] at h
      simp [mapSet, hk, h]
    · simp [mapGet, hk] at h
      simp [mapSet, hk, ih h]

/-! ## The transformer, one impression at a time -/

theorem existingOrNew_of_object (parent : GoMap Value) (key : String) (m : GoMap Value)
    (h : mapGet parent key = some (Value.object m)) : existingOrNew parent key = m := by
  simp [existingOrNew, getOrCreateMap, h]

theorem existingOrNew_of_not_object (parent : GoMap Value) (key : String)
    (h : ¬ IsObject (mapGet parent key)) : existingOrNew parent key = [] := by
  unfold existingOrNew getOrCreateMap
  split
  · rename_i m hm
    rw [hm] at h
    exact absurd trivial h
  · rfl

theorem mapSet_getOrCreateMap_snd (parent : GoMap Value) (key : String) (v : Value) :
    mapSet (getOrCreateMap parent key).2 key v = mapSet parent key v := by
  unfold getOrCreateMap
  split
  · rfl
  · exact mapSet_mapSet_self parent key _ v

/-- The impression after one iteration of the loop: the write-backs rebuild
the path `ext.prebid.bidder` around the maps `getOrCreateMap` returned. -/
theorem injectImp_object (bundle : String) (imp : GoMap Value) :
    injectImp bundle (Value.object imp) =
      Value.object (mapSet imp "ext" (Value.object
        (mapSet (existingOrNew imp "ext") "prebid" (Value.object
          (mapSet (existingOrNew (existingOrNew imp "ext") "prebid") "bidder" (Value.object
            (mapSet (existingOrNew (existingOrNew (existingOrNew imp "ext") "prebid") "bidder")
              "pubmatic" (pubmaticConfig (getAdSlot bundle (getAdType imp)))))))))) := by
  simp only [injectImp, existingOrNew, mapSet_getOrCreateMap_snd]

theorem injectImp_not_object (bundle : String) (item : Value)
    (h : ∀ imp, item ≠ Value.object imp) : injectImp bundle item = item := by
  cases item with
  | object m => exact absurd rfl (h m)
  | _ => rfl

theorem getAdType_mapSet_ext (imp : GoMap Value) (v : Value) :
    getAdType (mapSet imp "ext" v) = getAdType imp := by
  have h1 : mapGet (mapSet imp "ext" v) "video" = mapGet imp "video" :=
    mapGet_mapSet_ne imp "ext" "video" v (by decide)
  have h2 : mapGet (mapSet imp "ext" v) "banner" = mapGet imp "banner" :=
    mapGet_mapSet_ne imp "ext" "banner" v (by decide)
  have h3 : mapGet (mapSet imp "ext" v) "native" = mapGet imp "native" :=
    mapGet_mapSet_ne imp "ext" "native" v (by decide)
  simp only [getAdType, h1, h2, h3]

theorem existingOrNew_mapSet_self (parent : GoMap Value) (key : String) (m : GoMap Value) :
    existingOrNew (mapSet parent key (Value.object m)) key = m :=
  existingOrNew_of_object _ key m (mapGet_mapSet_self parent key _)

/-- A second iteration on an impression finds the whole path in place and
writes the same block again. -/
theorem injectImp_idempotent (bundle : String) (item : Value) :
    injectImp bundle (injectImp bundle item) = injectImp bundle item := by
  cases item with
  | object imp =>
    rw [injectImp_object bundle imp, injectImp_object]
    simp only [existingOrNew_mapSet_self, getAdType_mapSet_ext, mapSet_mapSet_self]
  | _ => rfl

theorem injectPubmaticConfig_of_imp (req : GoMap Value) (bundle : String)
    (impList : List Value) (himp : mapGet req "imp" = some (Value.array impList)) :
    injectPubmaticConfig req bundle =
      mapSet req "imp" (Value.array (impList.map (injectImp bundle))) := by
  simp [injectPubmaticConfig, himp]

theorem mapGet_injectPubmaticConfig_imp (req : GoMap Value) (bundle : String)
    (impList : List Value) (himp : mapGet req "imp" = some (Value.array impList)) :
    mapGet (injectPubmaticConfig req bundle) "imp" =
      some (Value.array (impList.map (injectImp bundle))) := by
  rw [injectPubmaticConfig_of_imp req bundle impList himp]
  exact mapGet_mapSet_self req "imp" _

theorem injectPubmaticConfig_of_no_imp (req : GoMap Value) (bundle : String)
    (himp : ∀ impList, mapGet req "imp" ≠ some (Value.array impList)) :
    injectPubmaticConfig req bundle = req := by
  unfold injectPubmaticConfig
  split
  · rename_i l hl
    exact absurd hl (himp l)
  · rfl

/-! ## The arbiter, one response at a time -/

theorem extractFirstBid_of_firstBidAt (m bid : GoMap Value) (h : FirstBidAt m bid) :
    extractFirstBid m = Except.ok (some bid) := by
  obtain ⟨seat, seats, bids, hs, hb⟩ := h
  simp [extractFirstBid, hs, hb]

theorem extractFirstBid_of_no_seat (m : GoMap Value)
    (h : ∀ seat seats, mapGet m "seatbid" ≠ some (Value.array (seat :: seats))) :
    extractFirstBid m = Except.ok none := by
  unfold extractFirstBid
  split
  · rename_i seat seats hs
    exact absurd hs (h seat seats)
  · rfl

theorem firstBidPrice_of_pricedAt (dec : Bytes → Option (GoMap Value)) (resp : Option Bytes)
    (p : ℚ) (h : PricedAt dec resp p) : firstBidPrice dec resp = Except.ok (some p) := by
  obtain ⟨b, m, bid, hr, hd, hf, hp⟩ := h
  subst hr
  simp [firstBidPrice, jsonUnmarshal, hd, extractFirstBid_of_firstBidAt m bid hf, hp,
    assertFloat64]

theorem firstBidPrice_of_noSeatBid (dec : Bytes → Option (GoMap Value)) (resp : Option Bytes)
    (h : NoSeatBid dec resp) : firstBidPrice dec resp = Except.ok none := by
  rcases h with h | ⟨b, hr, hd⟩ | ⟨b, m, hr, hd, hs⟩
  · subst h
    rfl
  · subst hr
    simp [firstBidPrice, jsonUnmarshal, hd]
  · subst hr
    simp [firstBidPrice, jsonUnmarshal, hd, extractFirstBid_of_no_seat m hs]

theorem extractHighestBid_of_prices (dec : Bytes → Option (GoMap Value))
    (pbsResp jioResp : Option Bytes) (pbsPrice jioPrice : Option ℚ)
    (h1 : firstBidPrice dec pbsResp = Except.ok pbsPrice)
    (h2 : firstBidPrice dec jioResp = Except.ok jioPrice) :
    extractHighestBid dec pbsResp jioResp =
      Except.ok
        (if jioPrice.isSome ∧ jioPrice.getD 0 > pbsPrice.getD 0 then jioResp
          else if pbsPrice.isSome then pbsResp else none,
         ⟨pbsPrice.getD 0, jioPrice.getD 0,
          if jioPrice.getD 0 > pbsPrice.getD 0 then "Jio"
          else if pbsPrice.getD 0 > 0 then "PubMatic" else "None"⟩) := by
  simp only [extractHighestBid, h1, h2]

/-! ## The sample bodies -/

theorem sampleDecoder_zeroPriceBody :
    sampleDecoder zeroPriceBody = some (bidResponse [("price", Value.number 0)]) := rfl

theorem sampleDecoder_noPriceBody : sampleDecoder noPriceBody = some (bidResponse []) := rfl

theorem sampleDecoder_stringPriceBody :
    sampleDecoder stringPriceBody = some (bidResponse [("price", Value.string "1.5")]) := rfl

theorem sampleDecoder_flatSeatBody :
    sampleDecoder flatSeatBody = some [("seatbid", Value.array [Value.string "none"])] := rfl

theorem sampleDecoder_jioBody :
    sampleDecoder jioBody = some (bidResponse [("price", Value.number (3 / 4))]) := rfl

theorem sampleDecoder_pbsBody :
    sampleDecoder pbsBody = some (bidResponse [("price", Value.number (5 / 2))]) := rfl

theorem sampleDecoder_lowBody :
    sampleDecoder lowBody = some (bidResponse [("price", Value.number 1)]) := rfl

theorem firstBidAt_bidResponse (bid : GoMap Value) : FirstBidAt (bidResponse bid) bid :=
  ⟨_, [], [], rfl, rfl⟩

/-! ## Claims about the bid arbiter -/

/-- C1, evaluated where the code departs from it. Destination 1 answers with a
first bid of price 0 and destination 2 is absent, so P1 = 0 and P2 = 0. The
rule of the claim gives NoBid, and the log line of the same call names the
winner "None", yet the call returns destination 1's bytes. -/
theorem extractHighestBid_zero_price_returns_pbs :
    extractHighestBid sampleDecoder (some zeroPriceBody) none =
      Except.ok (some zeroPriceBody, ⟨0, 0, "None"⟩) := by
  have h1 : firstBidPrice sampleDecoder (some zeroPriceBody) = Except.ok (some 0) :=
    firstBidPrice_of_pricedAt _ _ _
      ⟨_, _, _, rfl, sampleDecoder_zeroPriceBody, firstBidAt_bidResponse _, rfl⟩
  have h2 : firstBidPrice sampleDecoder none = Except.ok none := rfl
  rw [extractHighestBid_of_prices _ _ _ _ _ h1 h2]
  simp

/-- C2, evaluated where the code departs from it. A response that decodes
but has no number at `seatbid[0].bid[0].price` makes `extractHighestBid` panic,
as destination 1 or as destination 2: on the assertion `bid["price"].(float64)`
when the first bid has no `price` or a string there, and on the assertion
`seatBid[0].(map[string]interface{})` when the first seat is not an object. The
absence marker in its place gives NoBid. -/
theorem extractHighestBid_missing_price_panics :
    extractHighestBid sampleDecoder (some noPriceBody) none =
        Except.error (conversionPanic "float64") ∧
      extractHighestBid sampleDecoder none (some noPriceBody) =
        Except.error (conversionPanic "float64") ∧
      extractHighestBid sampleDecoder (some stringPriceBody) none =
        Except.error (conversionPanic "float64") ∧
      extractHighestBid sampleDecoder (some flatSeatBody) none =
        Except.error (conversionPanic "map[string]interface \x7b\x7d") ∧
      extractHighestBid sampleDecoder none none = Except.ok (none, ⟨0, 0, "None"⟩) := by
  have hnil : firstBidPrice sampleDecoder none = Except.ok none := rfl
  have hnoPrice : firstBidPrice sampleDecoder (some noPriceBody) =
      Except.error (conversionPanic "float64") := by
    simp [firstBidPrice, jsonUnmarshal, sampleDecoder_noPriceBody,
      extractFirstBid_of_firstBidAt _ _ (firstBidAt_bidResponse []), mapGet, assertFloat64]
  have hstring : firstBidPrice sampleDecoder (some stringPriceBody) =
      Except.error (conversionPanic "float64") := by
    simp [firstBidPrice, jsonUnmarshal, sampleDecoder_stringPriceBody,
      extractFirstBid_of_firstBidAt _ _ (firstBidAt_bidResponse _), mapGet, assertFloat64]
  have hflat : firstBidPrice sampleDecoder (some flatSeatBody) =
      Except.error (conversionPanic "map[string]interface \x7b\x7d") := by
    simp [firstBidPrice, jsonUnmarshal, sampleDecoder_flatSeatBody, extractFirstBid, mapGet]
  refine ⟨?_, ?_, ?_, ?_, ?_⟩
  · simp [extractHighestBid, hnoPrice]
  · simp [extractHighestBid, hnil, hnoPrice]
  · simp [extractHighestBid, hstring]
  · simp [extractHighestBid, hflat]
  · rw [extractHighestBid_of_prices _ _ _ _ _ hnil hnil]
    simp

/-- C3. When destination 1 is the absence marker and the first bid of
destination 2 carries a price `p > 0`, `extractHighestBid` returns destination
2's bytes (and logs the winner "Jio"). -/
theorem extractHighestBid_jio_only (dec : Bytes → Option (GoMap Value))
    (jioResp : Option Bytes) (p : ℚ) (hjio : PricedAt dec jioResp p) (hp : 0 < p) :
    extractHighestBid dec none jioResp = Except.ok (jioResp, ⟨0, p, "Jio"⟩) := by
  have h1 : firstBidPrice dec none = Except.ok none := rfl
  have h2 := firstBidPrice_of_pricedAt dec jioResp p hjio
  rw [extractHighestBid_of_prices _ _ _ _ _ h1 h2]
  simp [hp]

/-- Scenario D: destination 1 timed out, destination 2 bids 0.75. -/
theorem extractHighestBid_jio_only_witness :
    PricedAt sampleDecoder (some jioBody) (3 / 4) ∧ (0 : ℚ) < 3 / 4 ∧
      extractHighestBid sampleDecoder none (some jioBody) =
        Except.ok (some jioBody, ⟨0, 3 / 4, "Jio"⟩) :=
  have hpriced : PricedAt sampleDecoder (some jioBody) (3 / 4) :=
    ⟨_, _, _, rfl, sampleDecoder_jioBody, firstBidAt_bidResponse _, rfl⟩
  ⟨hpriced, by norm_num,
    extractHighestBid_jio_only sampleDecoder (some jioBody) (3 / 4) hpriced (by norm_num)⟩

/-- C4. When each response is nil, or not decodable as a JSON object, or an
object without a non-empty `seatbid` array, `extractHighestBid` returns nil
(NoBid); both inputs nil is one such case. -/
theorem extractHighestBid_no_bid (dec : Bytes → Option (GoMap Value))
    (pbsResp jioResp : Option Bytes) (hpbs : NoSeatBid dec pbsResp)
    (hjio : NoSeatBid dec jioResp) :
    extractHighestBid dec pbsResp jioResp = Except.ok (none, ⟨0, 0, "None"⟩) := by
  have h1 := firstBidPrice_of_noSeatBid dec pbsResp hpbs
  have h2 := firstBidPrice_of_noSeatBid dec jioResp hjio
  rw [extractHighestBid_of_prices _ _ _ _ _ h1 h2]
  simp

/-- Scenario E: both destinations are absence markers. -/
theorem extractHighestBid_no_bid_witness :
    NoSeatBid sampleDecoder none ∧
      extractHighestBid sampleDecoder none none = Except.ok (none, ⟨0, 0, "None"⟩) :=
  ⟨Or.inl rfl, extractHighestBid_no_bid sampleDecoder none none (Or.inl rfl) (Or.inl rfl)⟩

/-- C5. When the first bids carry prices `P1 > 0` and `P2 ≤ P1`, ties
included, `extractHighestBid` returns destination 1's bytes (and logs the winner
"PubMatic"). -/
theorem extractHighestBid_pbs_wins (dec : Bytes → Option (GoMap Value))
    (pbsResp jioResp : Option Bytes) (P1 P2 : ℚ) (hpbs : PricedAt dec pbsResp P1)
    (hjio : PricedAt dec jioResp P2) (hpos : 0 < P1) (hle : P2 ≤ P1) :
    extractHighestBid dec pbsResp jioResp = Except.ok (pbsResp, ⟨P1, P2, "PubMatic"⟩) := by
  have h1 := firstBidPrice_of_pricedAt dec pbsResp P1 hpbs
  have h2 := firstBidPrice_of_pricedAt dec jioResp P2 hjio
  rw [extractHighestBid_of_prices _ _ _ _ _ h1 h2]
  simp [not_lt.mpr hle, hpos]

/-- Scenario C: destination 1 bids 2.50, destination 2 bids 1.00. -/
theorem extractHighestBid_pbs_wins_witness :
    PricedAt sampleDecoder (some pbsBody) (5 / 2) ∧ PricedAt sampleDecoder (some lowBody) 1 ∧
      (0 : ℚ) < 5 / 2 ∧ (1 : ℚ) ≤ 5 / 2 ∧
      extractHighestBid sampleDecoder (some pbsBody) (some lowBody) =
        Except.ok (some pbsBody, ⟨5 / 2, 1, "PubMatic"⟩) :=
  have h1 : PricedAt sampleDecoder (some pbsBody) (5 / 2) :=
    ⟨_, _, _, rfl, sampleDecoder_pbsBody, firstBidAt_bidResponse _, rfl⟩
  have h2 : PricedAt sampleDecoder (some lowBody) 1 :=
    ⟨_, _, _, rfl, sampleDecoder_lowBody, firstBidAt_bidResponse _, rfl⟩
  ⟨h1, h2, by norm_num, by norm_num,
    extractHighestBid_pbs_wins sampleDecoder (some pbsBody) (some lowBody) (5 / 2) 1 h1 h2
      (by norm_num) (by norm_num)⟩

theorem existingOrNew_nil (key : String) : existingOrNew [] key = [] := rfl

/-- The path `ext.prebid.bidder.pubmatic` of an impression after its
iteration, with the maps that were created along the way. -/
theorem injectImp_path (bundle : String) (imp : GoMap Value) :
    ∃ imp' ext prebid bidder,
      injectImp bundle (Value.object imp) = Value.object imp' ∧
      imp' = mapSet imp "ext" (Value.object ext) ∧
      ext = mapSet (existingOrNew imp "ext") "prebid" (Value.object prebid) ∧
      prebid = mapSet (existingOrNew (existingOrNew imp "ext") "prebid") "bidder"
        (Value.object bidder) ∧
      bidder = mapSet (existingOrNew (existingOrNew (existingOrNew imp "ext") "prebid") "bidder")
        "pubmatic" (pubmaticConfig (getAdSlot bundle (getAdType imp))) :=
  ⟨_, _, _, _, injectImp_object bundle imp, rfl, rfl, rfl, rfl⟩

theorem hasKey_iff_isSome {α : Type} (m : GoMap α) (key : String) :
    hasKey m key ↔ (mapGet m key).isSome = true := by
  unfold hasKey
  cases mapGet m key with
  | none => simp
  | some v => simp

/-! ## Claims about the request transformer -/

/-- C6. After `injectPubmaticConfig` on a request whose `imp` is a sequence,
every element of `imp` that was an object is an object whose `ext`,
`ext.prebid` and `ext.prebid.bidder` are objects and whose
`ext.prebid.bidder.pubmatic` is `publisherId: publisherID, adSlot: getAdSlot
bundle (getAdType imp)`; the ad type of the impression is the same before and
after. A level of the path that was absent or not an object is a new object
holding only the level below. -/
theorem injectPubmaticConfig_injects (req : GoMap Value) (bundle : String)
    (impList : List Value) (himp : mapGet req "imp" = some (Value.array impList)) :
    ∃ out, mapGet (injectPubmaticConfig req bundle) "imp" = some (Value.array out) ∧
      ∀ (i : Nat) (imp : GoMap Value), impList[i]? = some (Value.object imp) →
        ∃ imp' ext prebid bidder,
          out[i]? = some (Value.object imp') ∧
          mapGet imp' "ext" = some (Value.object ext) ∧
          mapGet ext "prebid" = some (Value.object prebid) ∧
          mapGet prebid "bidder" = some (Value.object bidder) ∧
          mapGet bidder "pubmatic" = some (Value.object
            [ ("publisherId", Value.string publisherID),
              ("adSlot", Value.string (getAdSlot bundle (getAdType imp))) ]) ∧
          getAdType imp' = getAdType imp ∧
          (¬ IsObject (mapGet imp "ext") →
            ext = [("prebid", Value.object prebid)] ∧
            prebid = [("bidder", Value.object bidder)] ∧
            bidder = [("pubmatic", pubmaticConfig (getAdSlot bundle (getAdType imp)))]) ∧
          (∀ e, mapGet imp "ext" = some (Value.object e) → ¬ IsObject (mapGet e "prebid") →
            prebid = [("bidder", Value.object bidder)] ∧
            bidder = [("pubmatic", pubmaticConfig (getAdSlot bundle (getAdType imp)))]) ∧
          (∀ e p, mapGet imp "ext" = some (Value.object e) →
            mapGet e "prebid" = some (Value.object p) → ¬ IsObject (mapGet p "bidder") →
            bidder = [("pubmatic", pubmaticConfig (getAdSlot bundle (getAdType imp)))]) := by
  refine ⟨impList.map (injectImp bundle),
    mapGet_injectPubmaticConfig_imp req bundle impList himp, ?_⟩
  intro i imp hi
  obtain ⟨imp', ext, prebid, bidder, hinj, himp', hext, hprebid, hbidder⟩ :=
    injectImp_path bundle imp
  refine ⟨imp', ext, prebid, bidder, ?_, ?_, ?_, ?_, ?_, ?_, ?_, ?_, ?_⟩
  · rw [List.getElem?_map, hi, Option.map_some', hinj]
  · rw [himp']
    exact mapGet_mapSet_self imp "ext" _
  · rw [hext]
    exact mapGet_mapSet_self _ "prebid" _
  · rw [hprebid]
    exact mapGet_mapSet_self _ "bidder" _
  · rw [hbidder]
    exact mapGet_mapSet_self _ "pubmatic" _
  · rw [himp']
    exact getAdType_mapSet_ext imp _
  · intro hno
    have h1 := existingOrNew_of_not_object imp "ext" hno
    rw [h1, existingOrNew_nil] at hprebid hbidder
    rw [existingOrNew_nil] at hbidder
    rw [h1] at hext
    exact ⟨hext, hprebid, hbidder⟩
  · intro e he hno
    have h1 := existingOrNew_of_object imp "ext" e he
    have h2 := existingOrNew_of_not_object e "prebid" hno
    rw [h1, h2] at hprebid hbidder
    rw [existingOrNew_nil] at hbidder
    exact ⟨hprebid, hbidder⟩
  · intro e p he hp hno
    have h1 := existingOrNew_of_object imp "ext" e he
    have h2 := existingOrNew_of_object e "prebid" p hp
    have h3 := existingOrNew_of_not_object p "bidder" hno
    rw [h1, h2, h3] at hbidder
    exact hbidder

/-- Scenario A: one banner impression from bundle `com.truecaller` gets the
slot `6931445`. -/
theorem injectPubmaticConfig_injects_witness :
    mapGet bannerRequest "imp" =
        some (Value.array [Value.object [("id", Value.string "1"), ("banner", Value.object [])]]) ∧
      ∃ out imp' ext prebid bidder,
        mapGet (injectPubmaticConfig bannerRequest "com.truecaller") "imp" =
          some (Value.array out) ∧
        out[0]? = some (Value.object imp') ∧
        mapGet imp' "ext" = some (Value.object ext) ∧
        mapGet ext "prebid" = some (Value.object prebid) ∧
        mapGet prebid "bidder" = some (Value.object bidder) ∧
        mapGet bidder "pubmatic" = some (Value.object
          [("publisherId", Value.string ""), ("adSlot", Value.string "6931445")]) := by
  refine ⟨rfl, ?_⟩
  obtain ⟨out, hout, hall⟩ :=
    injectPubmaticConfig_injects bannerRequest "com.truecaller"
      [Value.object [("id", Value.string "1"), ("banner", Value.object [])]] rfl
  obtain ⟨imp', ext, prebid, bidder, h0, h1, h2, h3, h4, _⟩ :=
    hall 0 [("id", Value.string "1"), ("banner", Value.object [])] rfl
  exact ⟨out, imp', ext, prebid, bidder, hout, h0, h1, h2, h3, h4⟩

/-- C7. `getAdSlot` returns the entry of `adSlotMappings` for the bundle and
the ad type when the bundle is a key and the ad type is a key of its entries;
in every other case it returns `fallbackAdSlots[adType]`, which is the empty
string when the ad type is not a key of the fallback table. -/
theorem getAdSlot_lookup (bundle adType : String) :
    (∀ entries slot, mapGet adSlotMappings bundle = some entries →
        mapGet entries adType = some slot → getAdSlot bundle adType = slot) ∧
      ((∀ entries, mapGet adSlotMappings bundle = some entries →
          mapGet entries adType = none) →
        getAdSlot bundle adType = mapGetString fallbackAdSlots adType) ∧
      (mapGet fallbackAdSlots adType = none → mapGetString fallbackAdSlots adType = "") := by
  refine ⟨?_, ?_, ?_⟩
  · intro entries slot hb hs
    simp [getAdSlot, hb, hs]
  · intro h
    unfold getAdSlot
    cases hb : mapGet adSlotMappings bundle with
    | none => rfl
    | some entries => simp [h entries hb]
  · intro h
    simp [mapGetString, h]

/-- Scenario B: a bundle outside the mapping table with ad type `video` gets
the fallback slot. -/
theorem getAdSlot_lookup_witness :
    mapGet adSlotMappings "com.example.unmapped" = none ∧
      getAdSlot "com.example.unmapped" "video" = "default_video_slot" :=
  ⟨rfl, (getAdSlot_lookup "com.example.unmapped" "video").2.1
    (fun _ h => Option.noConfusion (Eq.trans (Eq.symm h) rfl))⟩

/-- C8. `getAdType` returns "video" when the key `video` is present, else
"banner" when `banner` is present, else "native" when `native` is present, else
"unknown". Two impressions with the same ones of these three keys present get
the same type, whatever the values, and a key holding null counts as present. -/
theorem getAdType_classifies (imp : GoMap Value) :
    (hasKey imp "video" → getAdType imp = "video") ∧
      (¬ hasKey imp "video" → hasKey imp "banner" → getAdType imp = "banner") ∧
      (¬ hasKey imp "video" → ¬ hasKey imp "banner" → hasKey imp "native" →
        getAdType imp = "native") ∧
      (¬ hasKey imp "video" → ¬ hasKey imp "banner" → ¬ hasKey imp "native" →
        getAdType imp = "unknown") ∧
      (∀ other : GoMap Value, (hasKey other "video" ↔ hasKey imp "video") →
        (hasKey other "banner" ↔ hasKey imp "banner") →
        (hasKey other "native" ↔ hasKey imp "native") → getAdType other = getAdType imp) ∧
      (mapGet imp "video" = some Value.null → getAdType imp = "video") := by
  refine ⟨?_, ?_, ?_, ?_, ?_, ?_⟩
  · intro hv
    rw [hasKey_iff_isSome] at hv
    simp [getAdType, hv]
  · intro hv hb
    rw [hasKey_iff_isSome] at hv hb
    simp only [getAdType, hv, hb]
    simp
  · intro hv hb hn
    rw [hasKey_iff_isSome] at hv hb hn
    simp only [getAdType, hv, hb, hn]
    simp
  · intro hv hb hn
    rw [hasKey_iff_isSome] at hv hb hn
    simp only [getAdType, hv, hb, hn]
    simp
  · intro other h1 h2 h3
    simp only [hasKey_iff_isSome] at h1 h2 h3
    simp only [getAdType, h1, h2, h3]
  · intro hnull
    simp [getAdType, hnull]

/-- An impression whose `banner` key holds null is a banner; one with only an
`id` is unknown. -/
theorem getAdType_classifies_witness :
    getAdType [("id", Value.string "1"), ("banner", Value.null)] = "banner" ∧
      getAdType [("id", Value.string "1")] = "unknown" :=
  ⟨(getAdType_classifies [("id", Value.string "1"), ("banner", Value.null)]).2.1
      (fun h => Exists.elim h (fun _ hv => Option.noConfusion hv)) ⟨Value.null, rfl⟩,
    (getAdType_classifies [("id", Value.string "1")]).2.2.2.1
      (fun h => Exists.elim h (fun _ hv => Option.noConfusion hv))
      (fun h => Exists.elim h (fun _ hv => Option.noConfusion hv))
      (fun h => Exists.elim h (fun _ hv => Option.noConfusion hv))⟩

/-- C9. Bidder injection is idempotent: a second `injectPubmaticConfig` with
the same bundle leaves the document as the first one left it. -/
theorem injectPubmaticConfig_idempotent (req : GoMap Value) (bundle : String) :
    injectPubmaticConfig (injectPubmaticConfig req bundle) bundle =
      injectPubmaticConfig req bundle := by
  by_cases h : ∃ impList, mapGet req "imp" = some (Value.array impList)
  · obtain ⟨impList, himp⟩ := h
    have hfun : (injectImp bundle) ∘ (injectImp bundle) = injectImp bundle :=
      funext (fun item => injectImp_idempotent bundle item)
    rw [injectPubmaticConfig_of_imp _ bundle _
        (mapGet_injectPubmaticConfig_imp req bundle impList himp),
      injectPubmaticConfig_of_imp req bundle impList himp, mapSet_mapSet_self,
      List.map_map, hfun]
  · have hno : ∀ impList, mapGet req "imp" ≠ some (Value.array impList) :=
      fun impList himp => h ⟨impList, himp⟩
    rw [injectPubmaticConfig_of_no_imp req bundle hno,
      injectPubmaticConfig_of_no_imp req bundle hno]

/-- C10. For an object impression whose `ext.prebid.bidder` is already an
object, `injectPubmaticConfig` leaves every key of `ext.prebid.bidder` other
than `pubmatic`, every key of `ext` other than `prebid` and every key of
`ext.prebid` other than `bidder` with the value it had. -/
theorem injectPubmaticConfig_keeps_siblings (req : GoMap Value) (bundle : String)
    (impList : List Value) (i : Nat) (imp ext prebid bidder : GoMap Value)
    (himp : mapGet req "imp" = some (Value.array impList))
    (hi : impList[i]? = some (Value.object imp))
    (hext : mapGet imp "ext" = some (Value.object ext))
    (hprebid : mapGet ext "prebid" = some (Value.object prebid))
    (hbidder : mapGet prebid "bidder" = some (Value.object bidder)) :
    ∃ out imp' ext' prebid' bidder',
      mapGet (injectPubmaticConfig req bundle) "imp" = some (Value.array out) ∧
      out[i]? = some (Value.object imp') ∧
      mapGet imp' "ext" = some (Value.object ext') ∧
      mapGet ext' "prebid" = some (Value.object prebid') ∧
      mapGet prebid' "bidder" = some (Value.object bidder') ∧
      (∀ key, key ≠ "pubmatic" → mapGet bidder' key = mapGet bidder key) ∧
      (∀ key, key ≠ "prebid" → mapGet ext' key = mapGet ext key) ∧
      (∀ key, key ≠ "bidder" → mapGet prebid' key = mapGet prebid key) := by
  obtain ⟨imp', ext', prebid', bidder', hinj, himp', hext', hprebid', hbidder'⟩ :=
    injectImp_path bundle imp
  rw [existingOrNew_of_object imp "ext" ext hext] at hext' hprebid' hbidder'
  rw [existingOrNew_of_object ext "prebid" prebid hprebid] at hprebid' hbidder'
  rw [existingOrNew_of_object prebid "bidder" bidder hbidder] at hbidder'
  refine ⟨impList.map (injectImp bundle), imp', ext', prebid', bidder',
    mapGet_injectPubmaticConfig_imp req bundle impList himp, ?_, ?_, ?_, ?_, ?_, ?_, ?_⟩
  · rw [List.getElem?_map, hi, Option.map_some', hinj]
  · rw [himp']
    exact mapGet_mapSet_self imp "ext" _
  · rw [hext']
    exact mapGet_mapSet_self _ "prebid" _
  · rw [hprebid']
    exact mapGet_mapSet_self _ "bidder" _
  · intro key hne
    rw [hbidder']
    exact mapGet_mapSet_ne bidder "pubmatic" key _ hne
  · intro key hne
    rw [hext']
    exact mapGet_mapSet_ne ext "prebid" key _ hne
  · intro key hne
    rw [hprebid']
    exact mapGet_mapSet_ne prebid "bidder" key _ hne

/-- An impression that already names the bidder `appnexus` keeps it, and keeps
`ext.skadn` and `ext.prebid.storedrequest`. -/
theorem injectPubmaticConfig_keeps_siblings_witness :
    mapGet configuredRequest "imp" = some (Value.array [Value.object configuredImp]) ∧
      ∃ out imp' ext' prebid' bidder',
        mapGet (injectPubmaticConfig configuredRequest "com.snapchat.android") "imp" =
          some (Value.array out) ∧
        out[0]? = some (Value.object imp') ∧
        mapGet imp' "ext" = some (Value.object ext') ∧
        mapGet ext' "prebid" = some (Value.object prebid') ∧
        mapGet prebid' "bidder" = some (Value.object bidder') ∧
        mapGet bidder' "appnexus" = some (Value.number 7) ∧
        mapGet ext' "skadn" = some (Value.bool true) ∧
        mapGet prebid' "storedrequest" = some (Value.string "s1") := by
  refine ⟨rfl, ?_⟩
  obtain ⟨out, imp', ext', prebid', bidder', h0, h1, h2, h3, h4, hb, he, hp⟩ :=
    injectPubmaticConfig_keeps_siblings configuredRequest "com.snapchat.android"
      [Value.object configuredImp] 0 configuredImp
      [ ("skadn", Value.bool true),
        ("prebid", Value.object
          [ ("storedrequest", Value.string "s1"),
            ("bidder", Value.object [("appnexus", Value.number 7)]) ]) ]
      [ ("storedrequest", Value.string "s1"),
        ("bidder", Value.object [("appnexus", Value.number 7)]) ]
      [("appnexus", Value.number 7)] rfl rfl rfl rfl rfl
  exact ⟨out, imp', ext', prebid', bidder', h0, h1, h2, h3, h4,
    (hb "appnexus" (by decide)).trans rfl, (he "skadn" (by decide)).trans rfl,
    (hp "storedrequest" (by decide)).trans rfl⟩

/-! ## The second destination's request -/

theorem jioRequest_eq (d : GoMap Value) :
    jioRequest d = mapSet d "ext" (Value.object
      (mapSet (mapSet (existingOrNew d "ext") "ssp" (Value.string "abc")) "spid"
        (Value.string "51"))) := by
  simp only [jioRequest, existingOrNew, mapSet_getOrCreateMap_snd]

theorem sendToJio_calls (env : Env) (body jioBody : Bytes) (d : GoMap Value)
    (hd : env.unmarshal body = Decoded.map d)
    (hm : env.marshal (some (jioRequest d)) = some jioBody) :
    (sendToJio env body).1 = [(jioURL, jioBody)] := by
  unfold sendToJio
  rw [hd]
  simp only [hm]
  cases env.post jioURL jioBody <;> rfl

theorem proxyHandler_calls (env : Env) (body modifiedBody : Bytes) (d : GoMap Value)
    (hd : env.unmarshal body = Decoded.map d)
    (hm : env.marshal (some (injectPubmaticConfig d (requestBundle d))) = some modifiedBody) :
    (proxyHandler env "POST" (some body)).calls =
      (prebidURL, modifiedBody) :: (sendToJio env body).1 := by
  unfold proxyHandler
  simp only [ne_eq, not_true_eq_false, if_false, hd]
  unfold dispatch
  simp only [hm]
  split
  · rfl
  · split <;> rfl

theorem handlerDecoder_inboundBody : handlerDecoder inboundBody = Decoded.map inboundDoc := rfl

theorem handlerDecoder_nullBody : handlerDecoder nullBody = Decoded.nilMap := rfl

/-! ## Claims about the dispatcher and the handler -/

/-- C11. For an inbound body that decodes to the object `d` (a map, not the
nil map that the text `null` gives), the document
`sendToJio` marshals and posts to destination 2 is `jioRequest d`: its `ext` is
an object with `ssp = "abc"` and `spid = "51"` that keeps every other key of an
object-valued `ext` of `d`, and every top-level key other than `ext`, `imp`
included, reads as in `d`. The handler passes the inbound body itself to
`sendToJio`, next to the POST of the injected request to destination 1. -/
theorem sendToJio_request (env : Env) (body : Bytes) (d : GoMap Value)
    (hd : env.unmarshal body = Decoded.map d) :
    (∀ jioBody, env.marshal (some (jioRequest d)) = some jioBody →
        (sendToJio env body).1 = [(jioURL, jioBody)]) ∧
      (∃ ext, mapGet (jioRequest d) "ext" = some (Value.object ext) ∧
        mapGet ext "ssp" = some (Value.string "abc") ∧
        mapGet ext "spid" = some (Value.string "51") ∧
        ∀ e, mapGet d "ext" = some (Value.object e) →
          ∀ key, key ≠ "ssp" → key ≠ "spid" → mapGet ext key = mapGet e key) ∧
      (∀ key, key ≠ "ext" → mapGet (jioRequest d) key = mapGet d key) ∧
      mapGet (jioRequest d) "imp" = mapGet d "imp" ∧
      (∀ modifiedBody,
        env.marshal (some (injectPubmaticConfig d (requestBundle d))) = some modifiedBody →
        (proxyHandler env "POST" (some body)).calls =
          (prebidURL, modifiedBody) :: (sendToJio env body).1) := by
  refine ⟨fun jioBody hm => sendToJio_calls env body jioBody d hd hm, ?_, ?_, ?_,
    fun modifiedBody hm => proxyHandler_calls env body modifiedBody d hd hm⟩
  · refine ⟨mapSet (mapSet (existingOrNew d "ext") "ssp" (Value.string "abc")) "spid"
      (Value.string "51"), ?_, ?_, ?_, ?_⟩
    · rw [jioRequest_eq]
      exact mapGet_mapSet_self d "ext" _
    · rw [mapGet_mapSet_ne _ "spid" "ssp" _ (by decide)]
      exact mapGet_mapSet_self _ "ssp" _
    · exact mapGet_mapSet_self _ "spid" _
    · intro e he key h1 h2
      rw [mapGet_mapSet_ne _ "spid" key _ h2, mapGet_mapSet_ne _ "ssp" key _ h1,
        existingOrNew_of_object d "ext" e he]
  · intro key hne
    rw [jioRequest_eq]
    exact mapGet_mapSet_ne d "ext" key _ hne
  · rw [jioRequest_eq]
    exact mapGet_mapSet_ne d "ext" "imp" _ (by decide)

/-- The sample inbound body: destination 2 gets `ext.ssp` and `ext.spid` next
to the `ext.trace` it came with, and the impression without an `ext`. -/
theorem sendToJio_request_witness :
    sampleEnv.unmarshal inboundBody = Decoded.map inboundDoc ∧
      (sendToJio sampleEnv inboundBody).1 = [(jioURL, ascii "request")] ∧
      (∃ ext, mapGet (jioRequest inboundDoc) "ext" = some (Value.object ext) ∧
        mapGet ext "ssp" = some (Value.string "abc") ∧
        mapGet ext "spid" = some (Value.string "51") ∧
        mapGet ext "trace" = some (Value.bool true)) ∧
      mapGet (jioRequest inboundDoc) "imp" = some (Value.array
        [Value.object [("id", Value.string "1"), ("banner", Value.object [])]]) := by
  have h := sendToJio_request sampleEnv inboundBody inboundDoc handlerDecoder_inboundBody
  obtain ⟨h1, ⟨ext, hext, hssp, hspid, hkeep⟩, _, himp, _⟩ := h
  refine ⟨handlerDecoder_inboundBody, h1 (ascii "request") rfl,
    ⟨ext, hext, hssp, hspid, ?_⟩, himp.trans rfl⟩
  exact (hkeep [("trace", Value.bool true)] rfl "trace" (by decide) (by decide)).trans rfl

/-- C12. After `injectPubmaticConfig` on a request whose `imp` is a sequence,
`imp` has the same length, an element that is not an object is unchanged at
its index, and an element that is an object is an object at the same index
whose keys other than `ext` read as before. -/
theorem injectPubmaticConfig_keeps_order (req : GoMap Value) (bundle : String)
    (impList : List Value) (himp : mapGet req "imp" = some (Value.array impList)) :
    ∃ out, mapGet (injectPubmaticConfig req bundle) "imp" = some (Value.array out) ∧
      out.length = impList.length ∧
      ∀ (i : Nat) (item : Value), impList[i]? = some item →
        ((∀ imp, item ≠ Value.object imp) → out[i]? = some item) ∧
        (∀ imp, item = Value.object imp →
          ∃ imp', out[i]? = some (Value.object imp') ∧
            ∀ key, key ≠ "ext" → mapGet imp' key = mapGet imp key) := by
  refine ⟨impList.map (injectImp bundle),
    mapGet_injectPubmaticConfig_imp req bundle impList himp, List.length_map _ _, ?_⟩
  intro i item hi
  constructor
  · intro hno
    rw [List.getElem?_map, hi, Option.map_some', injectImp_not_object bundle item hno]
  · intro imp hobj
    subst hobj
    obtain ⟨imp', ext, prebid, bidder, hinj, himp', _⟩ := injectImp_path bundle imp
    refine ⟨imp', ?_, ?_⟩
    · rw [List.getElem?_map, hi, Option.map_some', hinj]
    · intro key hne
      rw [himp']
      exact mapGet_mapSet_ne imp "ext" key _ hne

/-- In the mixed request the string stays at index 1 and the banner impression
at index 0 keeps its `id` and `banner`. -/
theorem injectPubmaticConfig_keeps_order_witness :
    mapGet mixedRequest "imp" = some (Value.array
        [ Value.object [("id", Value.string "1"), ("banner", Value.object [])],
          Value.string "x" ]) ∧
      ∃ out imp', mapGet (injectPubmaticConfig mixedRequest "com.truecaller") "imp" =
          some (Value.array out) ∧
        out.length = 2 ∧ out[1]? = some (Value.string "x") ∧
        out[0]? = some (Value.object imp') ∧
        mapGet imp' "id" = some (Value.string "1") ∧
        mapGet imp' "banner" = some (Value.object []) := by
  refine ⟨rfl, ?_⟩
  obtain ⟨out, hout, hlen, hall⟩ :=
    injectPubmaticConfig_keeps_order mixedRequest "com.truecaller"
      [ Value.object [("id", Value.string "1"), ("banner", Value.object [])],
        Value.string "x" ] rfl
  obtain ⟨imp', h0, hkeys⟩ := (hall 0 _ rfl).2 _ rfl
  exact ⟨out, imp', hout, hlen, (hall 1 (Value.string "x") rfl).1 (fun _ h => Value.noConfusion h),
    h0, (hkeys "id" (by decide)).trans rfl, (hkeys "banner" (by decide)).trans rfl⟩

theorem carriesPubmatic_injectImp (bundle : String) (imp : GoMap Value) :
    CarriesPubmatic (injectImp bundle (Value.object imp)) := by
  obtain ⟨imp', ext, prebid, bidder, hinj, himp', hext, hprebid, hbidder⟩ :=
    injectImp_path bundle imp
  refine ⟨imp', ext, prebid, bidder, getAdSlot bundle (getAdType imp), hinj, ?_, ?_, ?_, ?_⟩
  · rw [himp']
    exact mapGet_mapSet_self imp "ext" _
  · rw [hext]
    exact mapGet_mapSet_self _ "prebid" _
  · rw [hprebid]
    exact mapGet_mapSet_self _ "bidder" _
  · rw [hbidder]
    exact mapGet_mapSet_self _ "pubmatic" _

/-- C13 as stated fails on the mixed request: after injection the string in
`imp` carries no block, and the document is not the inbound one, since the
banner impression has gained an `ext`. -/
theorem injectPubmaticConfig_partial_on_mixed :
    ¬ ((∃ out, mapGet (injectPubmaticConfig mixedRequest "com.truecaller") "imp" =
          some (Value.array out) ∧ ∀ item ∈ out, CarriesPubmatic item) ∨
        injectPubmaticConfig mixedRequest "com.truecaller" = mixedRequest) := by
  rintro (⟨out, hout, hall⟩ | heq)
  · have h := mapGet_injectPubmaticConfig_imp mixedRequest "com.truecaller"
      [ Value.object [("id", Value.string "1"), ("banner", Value.object [])],
        Value.string "x" ] rfl
    rw [h] at hout
    have hout' : List.map (injectImp "com.truecaller")
        [ Value.object [("id", Value.string "1"), ("banner", Value.object [])],
          Value.string "x" ] = out := by
      injection hout with hv
      injection hv
    have hmem : Value.string "x" ∈ out := by
      rw [← hout']
      exact List.mem_cons_of_mem _ (List.mem_cons_self _ _)
    obtain ⟨imp, _, _, _, _, hobj, _⟩ := hall _ hmem
    exact Value.noConfusion hobj
  · have h := congrArg firstImpHasExt heq
    exact absurd h (by decide)

/-- C13, amended. After bidder injection on any request, either every element
of `imp` that is an object carries the `ext.prebid.bidder.pubmatic` block, or
the document is equal to the inbound document. -/
theorem injectPubmaticConfig_all_objects_or_unchanged (req : GoMap Value) (bundle : String) :
    (∃ out, mapGet (injectPubmaticConfig req bundle) "imp" = some (Value.array out) ∧
        ∀ item ∈ out, (∃ imp, item = Value.object imp) → CarriesPubmatic item) ∨
      injectPubmaticConfig req bundle = req := by
  by_cases h : ∃ impList, mapGet req "imp" = some (Value.array impList)
  · obtain ⟨impList, himp⟩ := h
    refine Or.inl ⟨impList.map (injectImp bundle),
      mapGet_injectPubmaticConfig_imp req bundle impList himp, ?_⟩
    intro item hmem hobj
    obtain ⟨a, _, ha⟩ := List.mem_map.mp hmem
    cases a with
    | object imp0 =>
      rw [← ha]
      exact carriesPubmatic_injectImp bundle imp0
    | null => exact absurd ha.symm (fun e => by obtain ⟨imp, hi⟩ := hobj; rw [hi] at e; cases e)
    | bool b => exact absurd ha.symm (fun e => by obtain ⟨imp, hi⟩ := hobj; rw [hi] at e; cases e)
    | number x => exact absurd ha.symm (fun e => by obtain ⟨imp, hi⟩ := hobj; rw [hi] at e; cases e)
    | string t => exact absurd ha.symm (fun e => by obtain ⟨imp, hi⟩ := hobj; rw [hi] at e; cases e)
    | array xs => exact absurd ha.symm (fun e => by obtain ⟨imp, hi⟩ := hobj; rw [hi] at e; cases e)
  · exact Or.inr (injectPubmaticConfig_of_no_imp req bundle
      (fun impList himp => h ⟨impList, himp⟩))

/-- C14. When `imp` is missing or is not a sequence, `injectPubmaticConfig`
leaves the whole request unchanged. -/
theorem injectPubmaticConfig_without_imp (req : GoMap Value) (bundle : String)
    (h : mapGet req "imp" = none ∨
      ∃ v, mapGet req "imp" = some v ∧ ∀ impList, v ≠ Value.array impList) :
    injectPubmaticConfig req bundle = req := by
  unfold injectPubmaticConfig
  split
  · rename_i impList himp
    rcases h with h | ⟨v, hv, hno⟩
    · rw [h] at himp
      cases himp
    · rw [hv] at himp
      injection himp with himp
      exact absurd himp (hno impList)
  · rfl

/-- A request without `imp` and a request whose `imp` is an object both come
out unchanged. -/
theorem injectPubmaticConfig_without_imp_witness :
    mapGet noImpRequest "imp" = none ∧
      injectPubmaticConfig noImpRequest "com.truecaller" = noImpRequest ∧
      mapGet objectImpRequest "imp" = some (Value.object [("banner", Value.object [])]) ∧
      injectPubmaticConfig objectImpRequest "com.truecaller" = objectImpRequest :=
  ⟨rfl, injectPubmaticConfig_without_imp noImpRequest "com.truecaller" (Or.inl rfl), rfl,
    injectPubmaticConfig_without_imp objectImpRequest "com.truecaller"
      (Or.inr ⟨_, rfl, fun _ h => Value.noConfusion h⟩)⟩

/-- C15 as stated fails: both destinations answer with status 500 and an
error page, and each task hands that page, not nil, to the arbiter. -/
theorem tasks_hand_body_of_error_status :
    errorEnv.post prebidURL (ascii "request") = PostResult.response 500 errorBody false ∧
      pbsTask errorEnv (ascii "request") = some errorBody ∧
      pbsTask errorEnv (ascii "request") ≠ none ∧
      (sendToJio errorEnv inboundBody).1 = [(jioURL, ascii "request")] ∧
      errorEnv.post jioURL (ascii "request") = PostResult.response 500 errorBody false ∧
      jioTask errorEnv inboundBody = Except.ok (some errorBody) ∧
      jioTask errorEnv inboundBody ≠ Except.ok none :=
  ⟨rfl, rfl, fun h => Option.noConfusion h, rfl, rfl, rfl,
    fun h => Option.noConfusion (Except.ok.inj (Eq.trans (Eq.symm rfl) h))⟩

/-- C15, amended. For each destination the outcome handed to the arbiter is
nil when `http.Post` returns an error; when the call completes, whatever the
status code, the outcome is the body that was read (for destination 2, whose
request is built from an inbound body that decodes to an object, nil when
reading the body failed). -/
theorem task_outcomes (env : Env) :
    (∀ modifiedBody,
        (env.post prebidURL modifiedBody = PostResult.failed →
          pbsTask env modifiedBody = none) ∧
        (∀ status respBody readFailed,
          env.post prebidURL modifiedBody = PostResult.response status respBody readFailed →
          pbsTask env modifiedBody = some respBody)) ∧
      (∀ body d jioBody, env.unmarshal body = Decoded.map d →
        env.marshal (some (jioRequest d)) = some jioBody →
        (env.post jioURL jioBody = PostResult.failed → jioTask env body = Except.ok none) ∧
        (∀ status respBody,
          env.post jioURL jioBody = PostResult.response status respBody false →
          jioTask env body = Except.ok (some respBody)) ∧
        (∀ status respBody,
          env.post jioURL jioBody = PostResult.response status respBody true →
          jioTask env body = Except.ok none)) := by
  constructor
  · intro modifiedBody
    constructor
    · intro h
      simp [pbsTask, h]
    · intro status respBody readFailed h
      simp [pbsTask, h]
  · intro body d jioBody hd hm
    refine ⟨?_, ?_, ?_⟩
    · intro h
      simp [jioTask, sendToJio, hd, hm, h]
    · intro status respBody h
      simp [jioTask, sendToJio, hd, hm, h]
    · intro status respBody h
      simp [jioTask, sendToJio, hd, hm, h]

/-- A 200 from destination 1 and a 500 from destination 2 both hand the body
on. -/
theorem task_outcomes_witness :
    pbsTask sampleEnv (ascii "request") = some pbsBody ∧
      jioTask errorEnv inboundBody = Except.ok (some errorBody) :=
  ⟨((task_outcomes sampleEnv).1 (ascii "request")).2 200 pbsBody false rfl,
    ((task_outcomes errorEnv).2 inboundBody inboundDoc (ascii "request")
      handlerDecoder_inboundBody rfl).2.1 500 errorBody rfl⟩

/-! ## The inbound body `null` -/

theorem jioTask_nilMap (env : Env) (body : Bytes) (h : env.unmarshal body = Decoded.nilMap) :
    jioTask env body = Except.error nilMapPanic := by
  simp [jioTask, sendToJio, h]

theorem jioTask_delivers (env : Env) (body : Bytes)
    (h : env.unmarshal body ≠ Decoded.nilMap) : ∃ v, jioTask env body = Except.ok v := by
  unfold jioTask sendToJio
  cases hd : env.unmarshal body with
  | failed => exact ⟨none, rfl⟩
  | nilMap => exact absurd hd h
  | map d =>
    simp only
    cases env.marshal (some (jioRequest d)) with
    | none => exact ⟨none, rfl⟩
    | some jioBody =>
      simp only
      cases env.post jioURL jioBody with
      | failed => exact ⟨none, rfl⟩
      | response status respBody readFailed => exact ⟨_, rfl⟩

theorem proxyHandler_nilMap (env : Env) (body modifiedBody : Bytes)
    (h : env.unmarshal body = Decoded.nilMap) (hm : env.marshal none = some modifiedBody) :
    proxyHandler env "POST" (some body) =
      ⟨[(prebidURL, modifiedBody)], Except.error nilMapPanic⟩ := by
  unfold proxyHandler
  simp only [ne_eq, not_true_eq_false, if_false, h]
  unfold dispatch
  simp only [hm, jioTask_nilMap env body h]
  simp [sendToJio, h]

/-- C16 as stated fails on the body `null`: it is not a JSON object, yet
`json.Unmarshal` accepts it, so the handler does not answer 400; it goes on to
the dispatch, where the run ends without a reply. -/
theorem proxyHandler_null_not_rejected :
    sampleEnv.unmarshal nullBody = Decoded.nilMap ∧
      (proxyHandler sampleEnv "POST" (some nullBody)).reply ≠
        Except.ok (httpError "Invalid JSON in request" 400) ∧
      (proxyHandler sampleEnv "POST" (some nullBody)).reply = Except.error nilMapPanic := by
  have h := proxyHandler_nilMap sampleEnv nullBody nullBody handlerDecoder_nullBody rfl
  refine ⟨handlerDecoder_nullBody, ?_, ?_⟩
  · rw [h]
    intro hne
    cases hne
  · rw [h]

/-- C16, amended. For an inbound POST body that `json.Unmarshal` rejects, the
handler answers 400 Bad Request and makes no downstream call. -/
theorem proxyHandler_invalid_json (env : Env) (body : Bytes)
    (h : env.unmarshal body = Decoded.failed) :
    proxyHandler env "POST" (some body) =
      ⟨[], Except.ok (httpError "Invalid JSON in request" 400)⟩ := by
  simp [proxyHandler, h]

/-- Scenario F: the body `not valid json` after an opening brace. -/
theorem proxyHandler_invalid_json_witness :
    sampleEnv.unmarshal invalidBody = Decoded.failed ∧
      proxyHandler sampleEnv "POST" (some invalidBody) =
        ⟨[], Except.ok (httpError "Invalid JSON in request" 400)⟩ ∧
      (httpError "Invalid JSON in request" 400).status = 400 :=
  ⟨rfl, proxyHandler_invalid_json sampleEnv invalidBody rfl, rfl⟩

/-- C17, evaluated where the code departs from it. On the inbound body `null`
the second task panics in `getOrCreateMap` before it sends anything on its
channel, and before any POST; destination 1's outcome is there, but the run
ends without arbitration and without a reply. -/
theorem jioTask_null_sends_nothing :
    sampleEnv.unmarshal nullBody = Decoded.nilMap ∧
      jioTask sampleEnv nullBody = Except.error nilMapPanic ∧
      (sendToJio sampleEnv nullBody).1 = [] ∧
      pbsTask sampleEnv nullBody = some pbsBody ∧
      (proxyHandler sampleEnv "POST" (some nullBody)).reply = Except.error nilMapPanic :=
  ⟨handlerDecoder_nullBody, jioTask_nilMap sampleEnv nullBody handlerDecoder_nullBody, rfl, rfl,
    congrArg Handled.reply
      (proxyHandler_nilMap sampleEnv nullBody nullBody handlerDecoder_nullBody rfl)⟩

/-! ## What the arbiter returns -/

theorem sampleDecoder_negativePriceBody :
    sampleDecoder negativePriceBody = some (bidResponse [("price", Value.number (-1))]) := rfl

theorem sampleDecoder_errorBody : sampleDecoder errorBody = none := rfl

theorem firstBidAt_of_extractFirstBid (m bid : GoMap Value)
    (h : extractFirstBid m = Except.ok (some bid)) : FirstBidAt m bid := by
  unfold extractFirstBid at h
  split at h
  · rename_i seat seats hs
    split at h
    · rename_i seatMap
      split at h
      · rename_i first bids hb
        split at h
        · rename_i bid0
          injection h with h
          injection h with h
          subst h
          exact ⟨seatMap, seats, bids, hs, hb⟩
        · cases h
      · cases h
    · cases h
  · cases h

theorem hasFirstBid_of_firstBidPrice (dec : Bytes → Option (GoMap Value))
    (resp : Option Bytes) (p : ℚ) (h : firstBidPrice dec resp = Except.ok (some p)) :
    HasFirstBid dec resp := by
  unfold firstBidPrice at h
  split at h
  · cases h
  · rename_i m hm
    split at h
    · cases h
    · cases h
    · rename_i bid hbid
      cases resp with
      | none => simp [jsonUnmarshal] at hm
      | some b => exact ⟨b, m, bid, rfl, hm, firstBidAt_of_extractFirstBid m bid hbid⟩

theorem firstBidPrice_of_undecodable (dec : Bytes → Option (GoMap Value)) (b : Bytes)
    (h : dec b = none) : firstBidPrice dec (some b) = Except.ok none := by
  simp [firstBidPrice, jsonUnmarshal, h]

/-- C18, evaluated where the code departs from it. With a first bid of price
0 from destination 1 and an error page from destination 2, the call returns
destination 1's bytes while its log line names the winner "None"; with a first
bid of price -1 from destination 1 and destination 2 absent, it returns
destination 1's bytes while its log line names "Jio". -/
theorem extractHighestBid_log_names_other_winner :
    extractHighestBid sampleDecoder (some zeroPriceBody) (some errorBody) =
        Except.ok (some zeroPriceBody, ⟨0, 0, "None"⟩) ∧
      extractHighestBid sampleDecoder (some negativePriceBody) none =
        Except.ok (some negativePriceBody, ⟨-1, 0, "Jio"⟩) := by
  have h0 : firstBidPrice sampleDecoder (some zeroPriceBody) = Except.ok (some 0) :=
    firstBidPrice_of_pricedAt _ _ _
      ⟨_, _, _, rfl, sampleDecoder_zeroPriceBody, firstBidAt_bidResponse _, rfl⟩
  have hneg : firstBidPrice sampleDecoder (some negativePriceBody) = Except.ok (some (-1)) :=
    firstBidPrice_of_pricedAt _ _ _
      ⟨_, _, _, rfl, sampleDecoder_negativePriceBody, firstBidAt_bidResponse _, rfl⟩
  have herr := firstBidPrice_of_undecodable sampleDecoder errorBody sampleDecoder_errorBody
  have hnil : firstBidPrice sampleDecoder none = Except.ok none := rfl
  constructor
  · rw [extractHighestBid_of_prices _ _ _ _ _ h0 herr]
    simp
  · rw [extractHighestBid_of_prices _ _ _ _ _ hneg hnil]
    simp

/-- C19. When `extractHighestBid` returns, its result is nil or is one of its
two inputs, and that input decoded and had a first bid. -/
theorem extractHighestBid_result_is_input (dec : Bytes → Option (GoMap Value))
    (pbsResp jioResp w : Option Bytes) (log : FinalBids)
    (h : extractHighestBid dec pbsResp jioResp = Except.ok (w, log)) :
    w = none ∨ (w = pbsResp ∧ HasFirstBid dec pbsResp) ∨
      (w = jioResp ∧ HasFirstBid dec jioResp) := by
  cases h1 : firstBidPrice dec pbsResp with
  | error e => simp [extractHighestBid, h1] at h
  | ok pbsPrice =>
    cases h2 : firstBidPrice dec jioResp with
    | error e => simp [extractHighestBid, h1, h2] at h
    | ok jioPrice =>
      rw [extractHighestBid_of_prices _ _ _ _ _ h1 h2] at h
      injection h with h
      injection h with hw _
      by_cases hj : jioPrice.isSome = true ∧ jioPrice.getD 0 > pbsPrice.getD 0
      · rw [if_pos hj] at hw
        obtain ⟨p, hp⟩ := Option.isSome_iff_exists.mp hj.1
        rw [hp] at h2
        exact Or.inr (Or.inr ⟨hw.symm, hasFirstBid_of_firstBidPrice dec jioResp p h2⟩)
      · rw [if_neg hj] at hw
        cases pbsPrice with
        | none =>
          simp at hw
          exact Or.inl hw.symm
        | some p =>
          simp at hw
          exact Or.inr (Or.inl ⟨hw.symm, hasFirstBid_of_firstBidPrice dec pbsResp p h1⟩)

/-- With bids 2.50 and 1.00 the call returns, and returns destination 1's
bytes, which have a first bid. -/
theorem extractHighestBid_result_is_input_witness :
    extractHighestBid sampleDecoder (some pbsBody) (some lowBody) =
        Except.ok (some pbsBody, ⟨5 / 2, 1, "PubMatic"⟩) ∧
      ((some pbsBody : Option Bytes) = none ∨
        ((some pbsBody : Option Bytes) = some pbsBody ∧
          HasFirstBid sampleDecoder (some pbsBody)) ∨
        ((some pbsBody : Option Bytes) = some lowBody ∧
          HasFirstBid sampleDecoder (some lowBody))) := by
  have h1 : firstBidPrice sampleDecoder (some pbsBody) = Except.ok (some (5 / 2)) :=
    firstBidPrice_of_pricedAt _ _ _
      ⟨_, _, _, rfl, sampleDecoder_pbsBody, firstBidAt_bidResponse _, rfl⟩
  have h2 : firstBidPrice sampleDecoder (some lowBody) = Except.ok (some 1) :=
    firstBidPrice_of_pricedAt _ _ _
      ⟨_, _, _, rfl, sampleDecoder_lowBody, firstBidAt_bidResponse _, rfl⟩
  have hrun : extractHighestBid sampleDecoder (some pbsBody) (some lowBody) =
      Except.ok (some pbsBody, ⟨5 / 2, 1, "PubMatic"⟩) := by
    rw [extractHighestBid_of_prices _ _ _ _ _ h1 h2]
    norm_num
  exact ⟨hrun, extractHighestBid_result_is_input sampleDecoder (some pbsBody) (some lowBody)
    (some pbsBody) ⟨5 / 2, 1, "PubMatic"⟩ hrun⟩

/-! ## Impressions of unknown type -/

theorem getAdType_of_no_keys (imp : GoMap Value) (hv : ¬ hasKey imp "video")
    (hb : ¬ hasKey imp "banner") (hn : ¬ hasKey imp "native") :
    getAdType imp = "unknown" := by
  rw [hasKey_iff_isSome] at hv hb hn
  simp only [getAdType, hv, hb, hn]
  simp

theorem adSlotMappings_unknown (bundle : String) (entries : GoMap String)
    (h : mapGet adSlotMappings bundle = some entries) : mapGet entries "unknown" = none := by
  unfold adSlotMappings at h
  simp only [mapGet] at h
  split at h
  · injection h with h
    subst h
    rfl
  · split at h
    · injection h with h
      subst h
      rfl
    · cases h

theorem getAdSlot_unknown (bundle : String) : getAdSlot bundle "unknown" = "" := by
  unfold getAdSlot
  cases h : mapGet adSlotMappings bundle with
  | none => rfl
  | some entries =>
    simp only [adSlotMappings_unknown bundle entries h]
    rfl

/-- C20. For every bundle and every object impression without the keys
`video`, `banner` and `native`, `injectPubmaticConfig` still injects the block
and its `adSlot` is the empty string: the impression classifies as "unknown",
which is a key of no bundle's entries in `adSlotMappings` and is not a key of
`fallbackAdSlots`. -/
theorem injectPubmaticConfig_unknown_type (req : GoMap Value) (bundle : String)
    (impList : List Value) (i : Nat) (imp : GoMap Value)
    (himp : mapGet req "imp" = some (Value.array impList))
    (hi : impList[i]? = some (Value.object imp))
    (hv : ¬ hasKey imp "video") (hb : ¬ hasKey imp "banner") (hn : ¬ hasKey imp "native") :
    getAdType imp = "unknown" ∧
      (∀ b entries, mapGet adSlotMappings b = some entries →
        mapGet entries "unknown" = none) ∧
      mapGet fallbackAdSlots "unknown" = none ∧
      getAdSlot bundle "unknown" = "" ∧
      ∃ out imp' ext prebid bidder,
        mapGet (injectPubmaticConfig req bundle) "imp" = some (Value.array out) ∧
        out[i]? = some (Value.object imp') ∧
        mapGet imp' "ext" = some (Value.object ext) ∧
        mapGet ext "prebid" = some (Value.object prebid) ∧
        mapGet prebid "bidder" = some (Value.object bidder) ∧
        mapGet bidder "pubmatic" = some (Value.object
          [("publisherId", Value.string publisherID), ("adSlot", Value.string "")]) := by
  have htype := getAdType_of_no_keys imp hv hb hn
  refine ⟨htype, adSlotMappings_unknown, rfl, getAdSlot_unknown bundle, ?_⟩
  obtain ⟨imp', ext, prebid, bidder, hinj, himp', hext, hprebid, hbidder⟩ :=
    injectImp_path bundle imp
  rw [htype, getAdSlot_unknown bundle] at hbidder
  refine ⟨impList.map (injectImp bundle), imp', ext, prebid, bidder,
    mapGet_injectPubmaticConfig_imp req bundle impList himp, ?_, ?_, ?_, ?_, ?_⟩
  · rw [List.getElem?_map, hi, Option.map_some', hinj]
  · rw [himp']
    exact mapGet_mapSet_self imp "ext" _
  · rw [hext]
    exact mapGet_mapSet_self _ "prebid" _
  · rw [hprebid]
    exact mapGet_mapSet_self _ "bidder" _
  · rw [hbidder]
    exact mapGet_mapSet_self _ "pubmatic" _

/-- An audio impression, from a mapped bundle, gets the block with an empty
slot. -/
theorem injectPubmaticConfig_unknown_type_witness :
    mapGet audioRequest "imp" = some (Value.array
        [Value.object [("id", Value.string "1"), ("audio", Value.object [])]]) ∧
      ¬ hasKey [("id", Value.string "1"), ("audio", Value.object [])] "video" ∧
      ∃ out imp' ext prebid bidder,
        mapGet (injectPubmaticConfig audioRequest "com.truecaller") "imp" =
          some (Value.array out) ∧
        out[0]? = some (Value.object imp') ∧
        mapGet imp' "ext" = some (Value.object ext) ∧
        mapGet ext "prebid" = some (Value.object prebid) ∧
        mapGet prebid "bidder" = some (Value.object bidder) ∧
        mapGet bidder "pubmatic" = some (Value.object
          [("publisherId", Value.string ""), ("adSlot", Value.string "")]) := by
  have hno : ∀ key, key = "video" ∨ key = "banner" ∨ key = "native" →
      ¬ hasKey [("id", Value.string "1"), ("audio", Value.object [])] key := by
    intro key hkey hhas
    obtain ⟨v, hv⟩ := hhas
    rcases hkey with h | h | h <;> subst h <;> exact Option.noConfusion hv
  refine ⟨rfl, hno "video" (Or.inl rfl), ?_⟩
  exact (injectPubmaticConfig_unknown_type audioRequest "com.truecaller"
    [Value.object [("id", Value.string "1"), ("audio", Value.object [])]] 0
    [("id", Value.string "1"), ("audio", Value.object [])] rfl rfl
    (hno "video" (Or.inl rfl)) (hno "banner" (Or.inr (Or.inl rfl)))
    (hno "native" (Or.inr (Or.inr rfl)))).2.2.2.2

end PbsProxy
